import Mathlib

/-!
Shallow embedding of the adaptive RRAM array-programming engine of
NI-RRAM-Python: the cell mask (`src/digitalpattern/mask.py`), the pulse
waveform encoder, the nested-sweep convergence searches, the window
targeting loop, the coarse/fine search and the endurance scheduler
(`src/digitalpattern/nirram.py`).

Modelling conventions:
* resistances and voltages are rationals (the Python code only ever
  compares them and does elementary arithmetic);
* the pandas `DataFrame` grids (`mask.mask`, `res_array`) are lists of
  lists, rows indexed by wordline labels, columns by bitline labels;
  label lookup `.loc[wl, bl]` becomes `List.indexOf` into the label lists;
* the hardware read primitive is an oracle `Nat → ResArray`: the k-th
  read performed by a call returns `oracle k`; the pulse primitive has no
  observable effect on the algorithm's state and is dropped;
* Python exceptions become `Except PyErr` / `Option` results; a function
  with no reachable `raise` is total.
-/

/-- Boolean grid, rows indexed by position of a wordline label in
`all_wls`, columns by position of a bitline label in `all_bls`
(the pandas `DataFrame` used for `RRAMArrayMask.mask`). -/
abbrev Grid := List (List Bool)

/-- Resistance read-back array, rows indexed by position in `self.wls`,
columns by position in `self.bls` (the `res_array` DataFrame). -/
abbrev ResArray := List (List ℚ)

/-- Entry of a boolean grid; out-of-range reads default to `false`
(only in-range cells are ever addressed by the source). -/
def gridGet (g : Grid) (i j : Nat) : Bool := (g.getD i []).getD j false

/-- Write one entry of a boolean grid (`mask.mask.loc[wl, bl] = b`). -/
def gridSet (g : Grid) (i j : Nat) (b : Bool) : Grid :=
  g.set i ((g.getD i []).set j b)

/-- Entry of a resistance array (`res_array.loc[wl, bl]`). -/
def resAt (r : ResArray) (i j : Nat) : ℚ := (r.getD i []).getD j 0

/-- The `mask.mask.to_numpy().sum() == 0` test: no entry is `true`. -/
def gridAllFalse (g : Grid) : Bool := g.all (fun row => row.all (fun b => !b))

/-- Python exception kinds that the embedded code can raise. -/
inductive PyErr where
  | assertionError
  | valueError
  | attributeError
  | keyError
  | indexError
  | nameError
deriving DecidableEq

/-- `RRAMArrayMask` (src/digitalpattern/mask.py): the boolean programming
mask over the full addressable grid plus the addressed line subsets. -/
structure RRAMArrayMask where
  mask : Grid
  wls : List Nat
  bls : List Nat
  sls : List Nat
  allWls : List Nat
  allBls : List Nat
  allSls : List Nat
  polarity : String

/-- `RRAMArrayMask.__init__` with `init_state=None`: the grid is
`[[(bl in bls) and (wl in wls) for bl in all_bls] for wl in all_wls]`.
The constructor performs no dimension validation whatsoever: the only
`raise` in the class body is commented out in the source. -/
def RRAMArrayMask.init (wls bls sls allWls allBls allSls : List Nat)
    (polarity : String) : RRAMArrayMask :=
  { mask := allWls.map (fun wl => allBls.map (fun bl =>
      decide (bl ∈ bls) && decide (wl ∈ wls)))
    wls := wls
    bls := bls
    sls := sls
    allWls := allWls
    allBls := allBls
    allSls := allSls
    polarity := polarity }

/-- Exception-aware view of `RRAMArrayMask.__init__`: since the class has
no live `raise`, construction always succeeds. -/
def RRAMArrayMask.construct (wls bls sls allWls allBls allSls : List Nat)
    (polarity : String) : Except PyErr RRAMArrayMask :=
  Except.ok (RRAMArrayMask.init wls bls sls allWls allBls allSls polarity)

/-- `RRAMArrayMask.get_pulse_masks`: for every wordline row of the mask
with at least one live entry, yield the triple
`(index == wl, row, row & False)` — a wordline selection vector, the
row's bitline vector, and an all-false sourceline vector. -/
def RRAMArrayMask.get_pulse_masks (m : RRAMArrayMask) :
    List (List Bool × List Bool × List Bool) :=
  (m.allWls.zip m.mask).filterMap (fun p =>
    if p.2.any id then
      some (m.allWls.map (fun w => decide (w = p.1)), p.2, p.2.map (fun _ => false))
    else none)

/-- Auxiliary fact: reading a `List.set` at a different index is reading
the original list. -/
theorem listGetD_set_ne {α : Type} (l : List α) (i j : Nat) (a d : α)
    (h : i ≠ j) : (l.set i a).getD j d = l.getD j d := by
  induction l generalizing i j with
  | nil => cases i <;> rfl
  | cons x xs ih =>
    cases i with
    | zero =>
      cases j with
      | zero => exact absurd rfl h
      | succ j => rfl
    | succ i =>
      cases j with
      | zero => rfl
      | succ j =>
        simpa using ih i j (by omega)

/-- Auxiliary fact: reading a `List.set` at the written index yields the
written value when in range, the default otherwise. -/
theorem listGetD_set_eq {α : Type} (l : List α) (i : Nat) (a d : α) :
    (l.set i a).getD i d = if i < l.length then a else d := by
  induction l generalizing i with
  | nil => cases i <;> simp [List.getD]
  | cons x xs ih =>
    cases i with
    | zero => simp [List.getD]
    | succ i => simpa [List.getD, Nat.succ_lt_succ_iff] using ih i

/-- Auxiliary fact: `List.getD` through `List.map` in range. -/
theorem listGetD_map {α β : Type} (f : α → β) (l : List α) (i : Nat)
    (d : β) (hi : i < l.length) :
    (l.map f).getD i d = f (l.get ⟨i, hi⟩) := by
  induction l generalizing i with
  | nil => simp at hi
  | cons x xs ih =>
    cases i with
    | zero => rfl
    | succ i => simpa using ih i (by simpa using hi)

/-- `NIRRAM.get_read_cycles` while-loop body. State: remaining `fuel`
(the Python loop has no bound of its own; with every scheduled step size
at least 1 the loop runs at most `max_cycles + 1` times, so the chosen
fuel is never exhausted on such schedules — `none` models a run that the
Python loop would not finish within that bound, i.e. nontermination on a
nonpositive step size), current cycle `n`, current `schedule_idx`, and
the accumulated `next_read_cycles`. -/
def getReadCyclesLoop (schedule : List (ℤ × ℤ)) (maxCycles : ℤ) :
    Nat → ℤ → Nat → List ℤ → Option (List ℤ)
  | 0, _, _, _ => none
  | fuel + 1, n, idx, acc =>
    if n ≤ maxCycles then
      let stepCount := (schedule.getD idx (0, 0)).2
      let nextIdx := min (idx + 1) (schedule.length - 1)
      let nextStepCycle := (schedule.getD nextIdx (0, 0)).1
      let n1 := n + stepCount
      let idx1 :=
        if idx < schedule.length - 1 ∧ nextStepCycle ≤ n1 then idx + 1 else idx
      getReadCyclesLoop schedule maxCycles fuel n1 idx1 (acc ++ [n])
    else some acc

/-- `NIRRAM.get_read_cycles(max_cycles, sweep_schedule)`: checkpoint
cycle list. `none` models an exception (`sweep_schedule[0]` on an empty
schedule is an `IndexError`) or a loop that does not terminate within
`max_cycles + 2` iterations. -/
def NIRRAM.get_read_cycles (maxCycles : ℤ) (schedule : List (ℤ × ℤ)) :
    Option (List ℤ) :=
  match schedule with
  | [] => none
  | _ :: _ => getReadCyclesLoop schedule maxCycles (maxCycles.toNat + 2) 0 0 []

/-- Claim C8: `get_read_cycles(25, [(0, 1), (10, 10)])` returns exactly
`[0, 1, 2, 3, 4, 5, 6, 7, 8, 9, 10, 20]`, a strictly increasing
checkpoint sequence starting at 0 that steps by the active schedule
entry's step size until the next threshold is reached. -/
theorem claim_C8 :
    NIRRAM.get_read_cycles 25 [(0, 1), (10, 10)] =
      some [0, 1, 2, 3, 4, 5, 6, 7, 8, 9, 10, 20] ∧
    List.Chain' (fun a b => a < b)
      ([0, 1, 2, 3, 4, 5, 6, 7, 8, 9, 10, 20] : List ℤ) := by
  constructor
  · rfl
  · norm_num [List.chain'_cons, List.chain'_singleton]

/-- Claim C5, counterexample: constructing an `RRAMArrayMask` with two
bitlines but a single sourceline (a mismatched non-1TNR configuration)
does NOT fail: the constructor contains no validation (its only raise is
commented out) and returns the mask normally. -/
theorem claim_C5_counterexample :
    (RRAMArrayMask.construct [1] [1, 2] [1] [1] [1, 2] [1] "NMOS").isOk
      = true := rfl

/-- Claim C5 as amended: construction never raises for any line
configuration (mismatched bitline/sourceline counts included), and the
grid it builds is true exactly at the intersections of the selected
wordlines and bitlines over the full addressable grid. -/
theorem claim_C5_amended (wls bls sls allWls allBls allSls : List Nat)
    (polarity : String) (i j : Nat)
    (hi : i < allWls.length) (hj : j < allBls.length) :
    RRAMArrayMask.construct wls bls sls allWls allBls allSls polarity =
      Except.ok (RRAMArrayMask.init wls bls sls allWls allBls allSls polarity) ∧
    gridGet (RRAMArrayMask.init wls bls sls allWls allBls allSls polarity).mask i j =
      (decide (allBls.get ⟨j, hj⟩ ∈ bls) && decide (allWls.get ⟨i, hi⟩ ∈ wls)) := by
  refine ⟨rfl, ?_⟩
  unfold RRAMArrayMask.init gridGet
  rw [listGetD_map _ allWls i [] hi]
  rw [listGetD_map _ allBls j false hj]

theorem claim_C5_witness :
    RRAMArrayMask.construct [3] [7] [7] [2, 3] [7, 8] [7] "NMOS" =
      Except.ok (RRAMArrayMask.init [3] [7] [7] [2, 3] [7, 8] [7] "NMOS") ∧
    gridGet (RRAMArrayMask.init [3] [7] [7] [2, 3] [7, 8] [7] "NMOS").mask 1 0 =
      (decide ((7 : Nat) ∈ ([7] : List Nat)) && decide ((3 : Nat) ∈ ([3] : List Nat))) :=
  claim_C5_amended [3] [7] [7] [2, 3] [7, 8] [7] "NMOS" 1 0
    (by decide) (by decide)

/-- `BitVector(bitlist=bits).int_val()`: the list is big-endian, the
first element is the most significant bit. -/
def bitsToNat (bits : List Bool) : Nat :=
  bits.foldl (fun acc b => 2 * acc + (if b then 1 else 0)) 0

/-- Unpadded pulse train of `NIRRAM.pulse`: for each selection triple
from the mask, a pre-pulse frame, a main frame and a post-pulse frame are
built by shifting bitline bits to the high range, sourceline bits to the
middle range and wordline bits to the low range; with `wl_first = False`
the pre/post frames zero the wordline bits, with `wl_first = True`
(the source's default) they zero the bitline/sourceline bits and keep the
wordline bits. The frames are repeated `prepulse_len`, `pulse_len` and
`postpulse_len` times and concatenated across all rows. -/
def NIRRAM.pulse_body (allWls allSls : List Nat)
    (masks : List (List Bool × List Bool × List Bool))
    (pulse_len prepulse_len postpulse_len : Nat) (wl_first : Bool) :
    List Nat :=
  let blBitsOffset := allWls.length + allSls.length
  let slBitsOffset := allWls.length
  masks.foldl (fun waveform msk =>
    let wlMaskBits := bitsToNat msk.1
    let blMaskBits := bitsToNat msk.2.1
    let slMaskBits := bitsToNat msk.2.2
    let frames :=
      if !wl_first then
        let wlPrePostBits := bitsToNat (msk.1.map (fun _ => false))
        ((blMaskBits <<< blBitsOffset) + (slMaskBits <<< slBitsOffset) + wlPrePostBits,
         (blMaskBits <<< blBitsOffset) + (slMaskBits <<< slBitsOffset) + wlMaskBits,
         (blMaskBits <<< blBitsOffset) + (slMaskBits <<< slBitsOffset) + wlPrePostBits)
      else
        let blPrePostBits := bitsToNat (msk.2.1.map (fun _ => false))
        let slPrePostBits := bitsToNat (msk.2.2.map (fun _ => false))
        ((blPrePostBits <<< blBitsOffset) + (slPrePostBits <<< slBitsOffset) + wlMaskBits,
         (blMaskBits <<< blBitsOffset) + (slMaskBits <<< slBitsOffset) + wlMaskBits,
         (blPrePostBits <<< blBitsOffset) + (slPrePostBits <<< slBitsOffset) + wlMaskBits)
    waveform ++ List.replicate prepulse_len frames.1 ++
      List.replicate pulse_len frames.2.1 ++
      List.replicate postpulse_len frames.2.2) []

/-- `NIRRAM.pulse(mask, pulse_len, prepulse_len, postpulse_len,
max_pulse_len, wl_first)`: the waveform written to the hardware.
The zero padding is `[0 for i in range(max_pulse_len * len(all_wls) -
len(waveform))]`; a Python `range` over a negative number is empty, so
(exactly like truncated `Nat` subtraction) an over-long waveform is
passed through unpadded and no exception of any kind is raised — the
function body contains no `raise` statement. -/
def NIRRAM.pulse (allWls allSls : List Nat) (mask : RRAMArrayMask)
    (pulse_len prepulse_len postpulse_len max_pulse_len : Nat)
    (wl_first : Bool) : List Nat :=
  let waveform := NIRRAM.pulse_body allWls allSls mask.get_pulse_masks
    pulse_len prepulse_len postpulse_len wl_first
  waveform ++ List.replicate (max_pulse_len * allWls.length - waveform.length) 0

/-- Claim C3, counterexample: with one wordline, a one-cell active mask,
bound `max_pulse_len = 1` and the source's default lengths
(`pulse_len = 10`, `prepulse_len = 2`, `postpulse_len = 0`), the unpadded
pulse train has 12 frames, which exceeds `max_pulse_len * len(all_wls)
= 1`; the call neither raises (a `WaveformOverflow` error exists nowhere
in the repository) nor produces a waveform of the claimed exact length —
it returns the 12-frame unpadded train. -/
theorem claim_C3_counterexample :
    (NIRRAM.pulse [0] [0] (RRAMArrayMask.init [0] [0] [0] [0] [0] [0] "NMOS")
        10 2 0 1 true).length = 12 ∧
    (NIRRAM.pulse [0] [0] (RRAMArrayMask.init [0] [0] [0] [0] [0] [0] "NMOS")
        10 2 0 1 true).length ≠ 1 * ([0] : List Nat).length := by
  constructor
  · rfl
  · decide

/-- Claim C3 as amended: the waveform `NIRRAM.pulse` hands to the
hardware has length `max(unpadded length, max_pulse_len * len(all_wls))`:
whenever the unpadded concatenation of per-row frames fits within the
bound it is zero-padded to exactly `max_pulse_len * len(all_wls)` frames,
and when it exceeds the bound no error is raised and the unpadded
concatenation itself is returned. -/
theorem claim_C3_amended (allWls allSls : List Nat) (mask : RRAMArrayMask)
    (pulse_len prepulse_len postpulse_len max_pulse_len : Nat)
    (wl_first : Bool) :
    (NIRRAM.pulse allWls allSls mask pulse_len prepulse_len postpulse_len
        max_pulse_len wl_first).length =
      max (NIRRAM.pulse_body allWls allSls mask.get_pulse_masks
        pulse_len prepulse_len postpulse_len wl_first).length
        (max_pulse_len * allWls.length) ∧
    ((NIRRAM.pulse_body allWls allSls mask.get_pulse_masks
        pulse_len prepulse_len postpulse_len wl_first).length ≤
          max_pulse_len * allWls.length →
      (NIRRAM.pulse allWls allSls mask pulse_len prepulse_len postpulse_len
          max_pulse_len wl_first).length = max_pulse_len * allWls.length) := by
  unfold NIRRAM.pulse
  simp only [List.length_append, List.length_replicate]
  omega

theorem claim_C3_witness :
    (NIRRAM.pulse [0] [0] (RRAMArrayMask.init [0] [0] [0] [0] [0] [0] "NMOS")
        10 2 0 10000 true).length = 10000 * ([0] : List Nat).length := by
  have h := claim_C3_amended [0] [0]
    (RRAMArrayMask.init [0] [0] [0] [0] [0] [0] "NMOS") 10 2 0 10000 true
  exact h.2 (by decide)

/-- Claim C4, code_bug evidence: take the full grid `all_wls = [0, 1]`,
`all_bls = [10, 11]`, `all_sls = [20, 21]` with wordline 0 and both
bitlines selected. The single pulse-mask row is
`([true, false], [true, true], [false, false])` (the sourceline vector
produced by `get_pulse_masks` is hardwired to all-false). With the
source's default `wl_first = True`, the bit layout is BL bits at offset
4, SL bits at offset 2, WL bits at offset 0, so:
* the first (pre-pulse) frame is `2` — wordline bit asserted,
  bitline/sourceline bits all zero.  The claim (and the function's own
  docstring) require the opposite: wordline inactive with bitline and
  sourceline bits asserted, which would be `0b111100 = 60`;
* the first main frame (index 2, after the two pre-pulse frames) is
  `50 = 0b110010` — bitline and wordline bits asserted but no sourceline
  bit, while the claim's frame description (and the docstring's
  `[1 1 1 1 1 1]` example) gives `0b111110 = 62`. -/
theorem claim_C4 :
    (NIRRAM.pulse [0, 1] [20, 21]
        (RRAMArrayMask.init [0] [10, 11] [20, 21] [0, 1] [10, 11] [20, 21] "NMOS")
        10 2 0 10000 true).getD 0 0 = 2 ∧
    (NIRRAM.pulse [0, 1] [20, 21]
        (RRAMArrayMask.init [0] [10, 11] [20, 21] [0, 1] [10, 11] [20, 21] "NMOS")
        10 2 0 10000 true).getD 2 0 = 50 ∧
    (2 : Nat) ≠ 60 ∧ (50 : Nat) ≠ 62 := by
  refine ⟨rfl, rfl, by decide, by decide⟩

/-- Line configuration of the controller (`self.wls`, `self.bls`,
`self.sls` and the full `all_*` lists from the settings). -/
structure NIRRAMDev where
  wls : List Nat
  bls : List Nat
  sls : List Nat
  allWls : List Nat
  allBls : List Nat
  allSls : List Nat
deriving DecidableEq

/-- Per-cell result row appended to `all_data` by the convergence
searches (`[chip, device, mode, wl, bl, res, cond, meas_i, meas_v, vwl,
vsl, vbl, pw, success]`); the constant identification columns and the
measurement columns that no claim constrains are omitted, the resistance
and the trailing success flag are kept. -/
structure Row where
  wl : Nat
  bl : Nat
  res : ℚ
  success : Bool
deriving DecidableEq

/-- Sweep configuration of one `dynamic_set` / `dynamic_reset` call: the
target resistance and the three sweep value lists produced by
`np.logspace` (pulse widths) and `np.arange` (gate voltage and swept
line voltage — VBL for set, VSL for reset). -/
structure DynCfg where
  dev : NIRRAMDev
  targetRes : ℚ
  pws : List ℚ
  vwls : List ℚ
  vlines : List ℚ
deriving DecidableEq

/-- Direction comparator of `dynamic_set`: `res <= target_res`. -/
def cmpSet (r t : ℚ) : Bool := decide (r ≤ t)

/-- Direction comparator of `dynamic_reset`: `res >= target_res`. -/
def cmpReset (r t : ℚ) : Bool := decide (t ≤ r)

/-- One cell of the per-read mask update of the array branch:
`if cmp(res_array.loc[wl_i, bl_i], target_res) and mask.mask.loc[wl_i,
bl_i]: mask.mask.loc[wl_i, bl_i] = False`. `aw` and `bb` are the
position/label pairs of the addressed wordline and bitline. -/
def clearStep (cmp : ℚ → ℚ → Bool) (targetRes : ℚ) (dev : NIRRAMDev)
    (res : ResArray) (aw : Nat × Nat) (g : Grid) (bb : Nat × Nat) : Grid :=
  if cmp (resAt res aw.1 bb.1) targetRes &&
      gridGet g (dev.allWls.indexOf aw.2) (dev.allBls.indexOf bb.2) then
    gridSet g (dev.allWls.indexOf aw.2) (dev.allBls.indexOf bb.2) false
  else g

/-- Per-read mask update of the array branch of the convergence loop:
for every addressed `(wl_i, bl_i)`, if the freshly read resistance meets
the comparator and the mask entry is live, clear the entry. -/
def updateMask (cmp : ℚ → ℚ → Bool) (targetRes : ℚ) (dev : NIRRAMDev)
    (res : ResArray) (g : Grid) : Grid :=
  dev.wls.enum.foldl (fun g1 aw =>
    dev.bls.enum.foldl (clearStep cmp targetRes dev res aw) g1) g

/-- Single-cell-select ("1TNR") success condition of the convergence
loop: success unless some addressed wordline has a live selected cell
whose read resistance misses the comparator (the source initializes
`success = True` and breaks to `False` at the first violation). -/
def oneTnrHitTarget (cmp : ℚ → ℚ → Bool) (targetRes : ℚ) (dev : NIRRAMDev)
    (blSel : Nat) (res : ResArray) (g : Grid) : Bool :=
  dev.wls.enum.all (fun aw =>
    !(!(cmp (resAt res aw.1 (dev.bls.indexOf blSel)) targetRes) &&
      gridGet g (dev.allWls.indexOf aw.2) (dev.allBls.indexOf blSel)))

/-- Inner iteration of the convergence loop after one pulse+read: in the
array branch (`bl_selected is None`) fold the read into the mask and
succeed when the mask is fully cleared; in the 1TNR branch leave the
mask untouched and test only the selected cells. -/
def sweepStep (cmp : ℚ → ℚ → Bool) (targetRes : ℚ) (dev : NIRRAMDev)
    (blSel : Option Nat) (res : ResArray) (g : Grid) : Grid × Bool :=
  match blSel with
  | none =>
    let g1 := updateMask cmp targetRes dev res g
    (g1, gridAllFalse g1)
  | some bl => (g, oneTnrHitTarget cmp targetRes dev bl res g)

/-- Triple nested sweep of `dynamic_set` / `dynamic_reset` flattened in
iteration order: for each pulse width, gate voltage, line voltage —
pulse, read, update, and break out of all three loops on success. The
result is the consumed-read counter together with the last read, the
final mask grid, the last sweep triple and the success flag; `none` when
the sweep is empty and no read ever happened (the later use of
`res_array` then raises `NameError` in the source). -/
def runSweep (cmp : ℚ → ℚ → Bool) (targetRes : ℚ) (dev : NIRRAMDev)
    (blSel : Option Nat) (oracle : Nat → ResArray) :
    List (ℚ × ℚ × ℚ) → Nat → Grid →
      Nat × Option (ResArray × Grid × (ℚ × ℚ × ℚ) × Bool)
  | [], k, _ => (k, none)
  | t :: rest, k, g =>
    let res := oracle k
    let sg := sweepStep cmp targetRes dev blSel res g
    if sg.2 then (k + 1, some (res, sg.1, t, true))
    else
      match runSweep cmp targetRes dev blSel oracle rest (k + 1) sg.1 with
      | (k2, none) => (k2, some (res, sg.1, t, false))
      | (k2, some out) => (k2, some out)

/-- The flattened iteration order of the triple nested sweep. -/
def sweepTriples (pws vwls vlines : List ℚ) : List (ℚ × ℚ × ℚ) :=
  pws.bind (fun pw => vwls.bind (fun vwl => vlines.map (fun v => (pw, vwl, v))))

/-- Final `all_data` report of the convergence searches: for every
addressed cell, its last read resistance and
`cell_success = cmp(res, target_res)`. -/
def finalRows (cmp : ℚ → ℚ → Bool) (targetRes : ℚ) (dev : NIRRAMDev)
    (res : ResArray) : List Row :=
  dev.wls.enum.bind (fun aw => dev.bls.enum.map (fun bb =>
    { wl := aw.2, bl := bb.2, res := resAt res aw.1 bb.1,
      success := cmp (resAt res aw.1 bb.1) targetRes }))

/-- Shared body of `NIRRAM.dynamic_set` and `NIRRAM.dynamic_reset`
(the two functions differ only in the comparator direction and in which
line voltage is swept): build a fresh mask over the addressed lines, run
the triple nested sweep and report the per-cell rows from the last read.
Returns the consumed-read counter and `none` when the sweep was empty
(the source then raises `NameError` on the unbound `res_array`). -/
def dynamicPass (cmp : ℚ → ℚ → Bool) (cfg : DynCfg) (blSel : Option Nat)
    (oracle : Nat → ResArray) (k0 : Nat) : Nat × Option (List Row) :=
  let mask := RRAMArrayMask.init cfg.dev.wls cfg.dev.bls cfg.dev.sls
    cfg.dev.allWls cfg.dev.allBls cfg.dev.allSls "NMOS"
  let st := runSweep cmp cfg.targetRes cfg.dev blSel oracle
    (sweepTriples cfg.pws cfg.vwls cfg.vlines) k0 mask.mask
  (st.1, st.2.map (fun out => finalRows cmp cfg.targetRes cfg.dev out.1))

/-- `NIRRAM.dynamic_set` with the success comparator `res <= target`. -/
def NIRRAM.dynamic_set (cfg : DynCfg) (blSel : Option Nat)
    (oracle : Nat → ResArray) (k0 : Nat) : Nat × Option (List Row) :=
  dynamicPass cmpSet cfg blSel oracle k0

/-- `NIRRAM.dynamic_reset` with the success comparator `res >= target`. -/
def NIRRAM.dynamic_reset (cfg : DynCfg) (blSel : Option Nat)
    (oracle : Nat → ResArray) (k0 : Nat) : Nat × Option (List Row) :=
  dynamicPass cmpReset cfg blSel oracle k0

/-- Auxiliary fact: a nonempty triple product sweeps at least one point. -/
theorem sweepTriples_ne_nil (pws vwls vlines : List ℚ)
    (h1 : pws ≠ []) (h2 : vwls ≠ []) (h3 : vlines ≠ []) :
    sweepTriples pws vwls vlines ≠ [] := by
  match pws, vwls, vlines with
  | p :: ps, w :: ws, v :: vs => simp [sweepTriples, List.cons_bind]

/-- Auxiliary fact: a sweep over at least one point always produces a
last read. -/
theorem runSweep_cons (cmp : ℚ → ℚ → Bool) (targetRes : ℚ)
    (dev : NIRRAMDev) (blSel : Option Nat) (oracle : Nat → ResArray)
    (t : ℚ × ℚ × ℚ) (rest : List (ℚ × ℚ × ℚ)) (k : Nat) (g : Grid) :
    ∃ out, (runSweep cmp targetRes dev blSel oracle (t :: rest) k g).2
      = some out := by
  simp only [runSweep]
  split
  · exact ⟨_, rfl⟩
  · split
    · exact ⟨_, rfl⟩
    · next k2 out heq => exact ⟨out, rfl⟩

/-- Auxiliary fact: every reported row's success flag is the comparator
applied to that row's reported resistance. -/
theorem finalRows_success (cmp : ℚ → ℚ → Bool) (targetRes : ℚ)
    (dev : NIRRAMDev) (res : ResArray) :
    ∀ r ∈ finalRows cmp targetRes dev res,
      r.success = cmp r.res targetRes := by
  intro r hr
  simp only [finalRows, List.mem_bind, List.mem_map] at hr
  obtain ⟨aw, _, bb, _, rfl⟩ := hr
  rfl

/-- Claim C1: whenever the configured pulse-width and voltage sweep
lists are all non-empty, `dynamic_set` and `dynamic_reset` return
normally (no exception — the result is `some` row list), and every
returned row's success flag equals the direction-specific comparator
(`res <= target` for set, `res >= target` for reset) applied to that
cell's last-read resistance; in particular it is `false` exactly for the
cells that never converged, so exhaustion is reported as data. -/
theorem claim_C1 (cfgS cfgR : DynCfg) (blSelS blSelR : Option Nat)
    (oracle : Nat → ResArray) (kS kR : Nat)
    (h1 : cfgS.pws ≠ []) (h2 : cfgS.vwls ≠ []) (h3 : cfgS.vlines ≠ [])
    (h4 : cfgR.pws ≠ []) (h5 : cfgR.vwls ≠ []) (h6 : cfgR.vlines ≠ []) :
    (∃ rows, (NIRRAM.dynamic_set cfgS blSelS oracle kS).2 = some rows ∧
      ∀ r ∈ rows, r.success = decide (r.res ≤ cfgS.targetRes)) ∧
    (∃ rows, (NIRRAM.dynamic_reset cfgR blSelR oracle kR).2 = some rows ∧
      ∀ r ∈ rows, r.success = decide (cfgR.targetRes ≤ r.res)) := by
  constructor
  · obtain ⟨t, rest, ht⟩ :=
      List.exists_cons_of_ne_nil (sweepTriples_ne_nil _ _ _ h1 h2 h3)
    obtain ⟨out, hout⟩ := runSweep_cons cmpSet cfgS.targetRes cfgS.dev
      blSelS oracle t rest kS (RRAMArrayMask.init cfgS.dev.wls cfgS.dev.bls
        cfgS.dev.sls cfgS.dev.allWls cfgS.dev.allBls cfgS.dev.allSls "NMOS").mask
    refine ⟨finalRows cmpSet cfgS.targetRes cfgS.dev out.1, ?_, ?_⟩
    · simp only [NIRRAM.dynamic_set, dynamicPass, ht, hout, Option.map_some']
    · exact finalRows_success cmpSet cfgS.targetRes cfgS.dev out.1
  · obtain ⟨t, rest, ht⟩ :=
      List.exists_cons_of_ne_nil (sweepTriples_ne_nil _ _ _ h4 h5 h6)
    obtain ⟨out, hout⟩ := runSweep_cons cmpReset cfgR.targetRes cfgR.dev
      blSelR oracle t rest kR (RRAMArrayMask.init cfgR.dev.wls cfgR.dev.bls
        cfgR.dev.sls cfgR.dev.allWls cfgR.dev.allBls cfgR.dev.allSls "NMOS").mask
    refine ⟨finalRows cmpReset cfgR.targetRes cfgR.dev out.1, ?_, ?_⟩
    · simp only [NIRRAM.dynamic_reset, dynamicPass, ht, hout, Option.map_some']
    · exact finalRows_success cmpReset cfgR.targetRes cfgR.dev out.1

def cfgSetW : DynCfg := ⟨⟨[0], [0], [0], [0], [0], [0]⟩, 100, [1], [1], [1]⟩

def cfgResetW : DynCfg := ⟨⟨[0], [0], [0], [0], [0], [0]⟩, 0, [1], [1], [1]⟩

def oracleW : Nat → ResArray := fun _ => [[50]]

theorem claim_C1_witness :
    (∃ rows, (NIRRAM.dynamic_set cfgSetW none oracleW 0).2 = some rows ∧
      ∀ r ∈ rows, r.success = decide (r.res ≤ cfgSetW.targetRes)) ∧
    (∃ rows, (NIRRAM.dynamic_reset cfgResetW none oracleW 0).2 = some rows ∧
      ∀ r ∈ rows, r.success = decide (cfgResetW.targetRes ≤ r.res)) :=
  claim_C1 cfgSetW cfgResetW none none oracleW 0 0 (by decide) (by decide)
    (by decide) (by decide) (by decide) (by decide)

/-- Auxiliary fact: clearing one grid entry never turns an entry on. -/
theorem gridGet_gridSet_false (g : Grid) (i j p q : Nat)
    (h : gridGet (gridSet g i j false) p q = true) :
    gridGet g p q = true := by
  unfold gridGet gridSet at h
  unfold gridGet
  by_cases hp : p = i
  · subst hp
    rw [listGetD_set_eq] at h
    by_cases hl : p < g.length
    · rw [if_pos hl] at h
      by_cases hq : q = j
      · subst hq
        rw [listGetD_set_eq] at h
        split at h <;> simp at h
      · rwa [listGetD_set_ne _ _ _ _ _ (fun he => hq he.symm)] at h
    · rw [if_neg hl] at h
      simp at h
  · rwa [listGetD_set_ne _ _ _ _ _ (fun he => hp he.symm)] at h

/-- Auxiliary fact: clearing entry `(i, j)` changes no other entry; an
entry that flips must be the written one. -/
theorem gridGet_gridSet_false_flip (g : Grid) (i j p q : Nat)
    (hbefore : gridGet g p q = true)
    (hafter : gridGet (gridSet g i j false) p q = false) :
    p = i ∧ q = j := by
  unfold gridGet gridSet at hafter
  by_cases hp : p = i
  · subst hp
    refine ⟨rfl, ?_⟩
    by_cases hq : q = j
    · exact hq
    · exfalso
      rw [listGetD_set_eq] at hafter
      by_cases hl : p < g.length
      · rw [if_pos hl, listGetD_set_ne _ _ _ _ _ (fun he => hq he.symm)]
          at hafter
        rw [gridGet] at hbefore
        exact absurd (hbefore.symm.trans hafter) (by decide)
      · rw [if_neg hl] at hafter
        rw [gridGet] at hbefore
        have : g.getD p [] = [] := by
          rw [List.getD_eq_getD_get?, List.get?_eq_none.mpr (by omega)]
          rfl
        rw [this] at hbefore
        simp at hbefore
  · exfalso
    rw [listGetD_set_ne _ _ _ _ _ (fun he => hp he.symm)] at hafter
    rw [gridGet] at hbefore
    exact absurd (hbefore.symm.trans hafter) (by decide)

/-- Auxiliary fact: one mask-update cell step never turns an entry on. -/
theorem clearStep_mono (cmp : ℚ → ℚ → Bool) (targetRes : ℚ)
    (dev : NIRRAMDev) (res : ResArray) (aw bb : Nat × Nat) (g : Grid)
    (p q : Nat)
    (h : gridGet (clearStep cmp targetRes dev res aw g bb) p q = true) :
    gridGet g p q = true := by
  unfold clearStep at h
  split at h
  · exact gridGet_gridSet_false g _ _ p q h
  · exact h

/-- Auxiliary fact: when one mask-update cell step flips an entry off,
the entry is the addressed cell's and its read resistance met the
comparator. -/
theorem clearStep_flip (cmp : ℚ → ℚ → Bool) (targetRes : ℚ)
    (dev : NIRRAMDev) (res : ResArray) (aw bb : Nat × Nat) (g : Grid)
    (p q : Nat) (hbefore : gridGet g p q = true)
    (hafter : gridGet (clearStep cmp targetRes dev res aw g bb) p q = false) :
    p = dev.allWls.indexOf aw.2 ∧ q = dev.allBls.indexOf bb.2 ∧
      cmp (resAt res aw.1 bb.1) targetRes = true := by
  unfold clearStep at hafter
  split at hafter
  · next hcond =>
    obtain ⟨hpq1, hpq2⟩ := gridGet_gridSet_false_flip g _ _ p q hbefore hafter
    exact ⟨hpq1, hpq2, (Bool.and_eq_true _ _ |>.mp hcond).1⟩
  · exact absurd (hbefore.symm.trans hafter) (by decide)

/-- Auxiliary fact: folding the cell step over the bitlines never turns
an entry on. -/
theorem innerFold_mono (cmp : ℚ → ℚ → Bool) (targetRes : ℚ)
    (dev : NIRRAMDev) (res : ResArray) (aw : Nat × Nat) (p q : Nat) :
    ∀ (l : List (Nat × Nat)) (g : Grid),
      gridGet (l.foldl (clearStep cmp targetRes dev res aw) g) p q = true →
      gridGet g p q = true := by
  intro l
  induction l with
  | nil => intro g h; exact h
  | cons x xs ih =>
    intro g h
    exact clearStep_mono cmp targetRes dev res aw x g p q (ih _ h)

/-- Auxiliary fact: if folding the cell step over the bitlines flips an
entry off, some addressed bitline is responsible and its read met the
comparator. -/
theorem innerFold_flip (cmp : ℚ → ℚ → Bool) (targetRes : ℚ)
    (dev : NIRRAMDev) (res : ResArray) (aw : Nat × Nat) (p q : Nat) :
    ∀ (l : List (Nat × Nat)) (g : Grid),
      gridGet g p q = true →
      gridGet (l.foldl (clearStep cmp targetRes dev res aw) g) p q = false →
      ∃ bb ∈ l, p = dev.allWls.indexOf aw.2 ∧ q = dev.allBls.indexOf bb.2 ∧
        cmp (resAt res aw.1 bb.1) targetRes = true := by
  intro l
  induction l with
  | nil =>
    intro g hb ha
    exact absurd (hb.symm.trans ha) (by decide)
  | cons x xs ih =>
    intro g hb ha
    by_cases h1 : gridGet (clearStep cmp targetRes dev res aw g x) p q = true
    · obtain ⟨bb, hbb, hrest⟩ := ih _ h1 ha
      exact ⟨bb, List.mem_cons_of_mem _ hbb, hrest⟩
    · obtain ⟨hp, hq, hc⟩ := clearStep_flip cmp targetRes dev res aw x g p q
        hb (by
          cases hx : gridGet (clearStep cmp targetRes dev res aw g x) p q
          · rfl
          · exact absurd hx h1)
      exact ⟨x, List.mem_cons_self _ _, hp, hq, hc⟩

/-- Auxiliary fact: the full per-read mask update never turns an entry
on. -/
theorem updateMask_mono (cmp : ℚ → ℚ → Bool) (targetRes : ℚ)
    (dev : NIRRAMDev) (res : ResArray) (p q : Nat) :
    ∀ (l : List (Nat × Nat)) (g : Grid),
      gridGet (l.foldl (fun g1 aw =>
        dev.bls.enum.foldl (clearStep cmp targetRes dev res aw) g1) g) p q
          = true →
      gridGet g p q = true := by
  intro l
  induction l with
  | nil => intro g h; exact h
  | cons x xs ih =>
    intro g h
    exact innerFold_mono cmp targetRes dev res x p q _ g (ih _ h)

/-- Auxiliary fact: if the full per-read mask update flips an entry off,
some addressed wordline/bitline pair is responsible. -/
theorem updateMask_flip (cmp : ℚ → ℚ → Bool) (targetRes : ℚ)
    (dev : NIRRAMDev) (res : ResArray) (p q : Nat) :
    ∀ (l : List (Nat × Nat)) (g : Grid),
      gridGet g p q = true →
      gridGet (l.foldl (fun g1 aw =>
        dev.bls.enum.foldl (clearStep cmp targetRes dev res aw) g1) g) p q
          = false →
      ∃ aw ∈ l, ∃ bb ∈ dev.bls.enum,
        p = dev.allWls.indexOf aw.2 ∧ q = dev.allBls.indexOf bb.2 ∧
        cmp (resAt res aw.1 bb.1) targetRes = true := by
  intro l
  induction l with
  | nil =>
    intro g hb ha
    exact absurd (hb.symm.trans ha) (by decide)
  | cons x xs ih =>
    intro g hb ha
    by_cases h1 : gridGet
        (dev.bls.enum.foldl (clearStep cmp targetRes dev res x) g) p q = true
    · obtain ⟨aw, haw, hrest⟩ := ih _ h1 ha
      exact ⟨aw, List.mem_cons_of_mem _ haw, hrest⟩
    · obtain ⟨bb, hbb, hrest⟩ := innerFold_flip cmp targetRes dev res x p q
        dev.bls.enum g hb (by
          cases hx : gridGet
              (dev.bls.enum.foldl (clearStep cmp targetRes dev res x) g) p q
          · rfl
          · exact absurd hx h1)
      exact ⟨x, List.mem_cons_self _ _, bb, hbb, hrest⟩

/-- Auxiliary fact: one sweep iteration never turns a mask entry on. -/
theorem sweepStep_mono (cmp : ℚ → ℚ → Bool) (targetRes : ℚ)
    (dev : NIRRAMDev) (blSel : Option Nat) (res : ResArray) (g : Grid)
    (p q : Nat)
    (h : gridGet (sweepStep cmp targetRes dev blSel res g).1 p q = true) :
    gridGet g p q = true := by
  cases blSel with
  | none =>
    exact updateMask_mono cmp targetRes dev res p q dev.wls.enum g h
  | some bl => exact h

/-- Auxiliary fact: the final mask grid of the whole nested sweep is
pointwise below the initial one. -/
theorem runSweep_mono (cmp : ℚ → ℚ → Bool) (targetRes : ℚ)
    (dev : NIRRAMDev) (blSel : Option Nat) (oracle : Nat → ResArray)
    (p q : Nat) :
    ∀ (l : List (ℚ × ℚ × ℚ)) (k : Nat) (g : Grid) (k2 : Nat)
      (res2 : ResArray) (g2 : Grid) (t2 : ℚ × ℚ × ℚ) (s2 : Bool),
      runSweep cmp targetRes dev blSel oracle l k g =
        (k2, some (res2, g2, t2, s2)) →
      gridGet g2 p q = true → gridGet g p q = true := by
  intro l
  induction l with
  | nil =>
    intro k g k2 res2 g2 t2 s2 heq
    exact absurd (congrArg Prod.snd heq) (by simp [runSweep])
  | cons t rest ih =>
    intro k g k2 res2 g2 t2 s2 heq hget
    simp only [runSweep] at heq
    split at heq
    · injection heq with h1 h2
      injection h2 with h3
      injection h3 with h4 h5
      injection h5 with h6 h7
      rw [← h6] at hget
      exact sweepStep_mono cmp targetRes dev blSel _ g p q hget
    · split at heq
      · next k3 hrec =>
        injection heq with h1 h2
        injection h2 with h3
        injection h3 with h4 h5
        injection h5 with h6 h7
        rw [← h6] at hget
        exact sweepStep_mono cmp targetRes dev blSel _ g p q hget
      · next k3 out hrec =>
        injection heq with h1 h2
        injection h2 with h3
        subst h3
        exact sweepStep_mono cmp targetRes dev blSel _ g p q
          (ih _ _ _ _ _ _ _ hrec hget)

/-- Claim C2: within one `dynamic_set`/`dynamic_reset` call the mask is
monotonic — (1) the per-read mask update never turns an entry on,
(2) an entry flips from true to false only when it is an addressed cell
whose freshly read resistance meets the direction comparator, and
(3) across the whole triple nested sweep the final mask grid is
pointwise below the fresh mask built at the start of the call, so no
entry ever returns from false to true before the call ends. -/
theorem claim_C2 (cmp : ℚ → ℚ → Bool) (targetRes : ℚ) (dev : NIRRAMDev)
    (res : ResArray) (g : Grid) (p q : Nat) :
    (gridGet (updateMask cmp targetRes dev res g) p q = true →
      gridGet g p q = true) ∧
    (gridGet g p q = true →
      gridGet (updateMask cmp targetRes dev res g) p q = false →
      ∃ aw ∈ dev.wls.enum, ∃ bb ∈ dev.bls.enum,
        p = dev.allWls.indexOf aw.2 ∧ q = dev.allBls.indexOf bb.2 ∧
        cmp (resAt res aw.1 bb.1) targetRes = true) ∧
    (∀ (blSel : Option Nat) (oracle : Nat → ResArray)
        (l : List (ℚ × ℚ × ℚ)) (k k2 : Nat) (res2 : ResArray) (g2 : Grid)
        (t2 : ℚ × ℚ × ℚ) (s2 : Bool),
      runSweep cmp targetRes dev blSel oracle l k g =
        (k2, some (res2, g2, t2, s2)) →
      gridGet g2 p q = true → gridGet g p q = true) := by
  refine ⟨?_, ?_, ?_⟩
  · intro h
    unfold updateMask at h
    exact updateMask_mono cmp targetRes dev res p q dev.wls.enum g h
  · intro hb ha
    unfold updateMask at ha
    exact updateMask_flip cmp targetRes dev res p q dev.wls.enum g hb ha
  · intro blSel oracle l k k2 res2 g2 t2 s2 heq hget
    exact runSweep_mono cmp targetRes dev blSel oracle p q l k g k2 res2 g2
      t2 s2 heq hget

def devW : NIRRAMDev := ⟨[0], [0], [0], [0], [0], [0]⟩

instance : DecidableEq (ResArray × Grid × (ℚ × ℚ × ℚ) × Bool) :=
  inferInstance

theorem claim_C2_witness :
    gridGet [[true]] 0 0 = true ∧
    (∃ aw ∈ devW.wls.enum, ∃ bb ∈ devW.bls.enum,
      (0 : Nat) = devW.allWls.indexOf aw.2 ∧
      (0 : Nat) = devW.allBls.indexOf bb.2 ∧
      cmpSet (resAt [[50]] aw.1 bb.1) 100 = true) ∧
    gridGet [[true]] 0 0 = true :=
  ⟨(claim_C2 cmpSet 100 devW [[200]] [[true]] 0 0).1 (by decide),
   (claim_C2 cmpSet 100 devW [[50]] [[true]] 0 0).2.1 (by decide) (by decide),
   (claim_C2 cmpSet 100 devW [[200]] [[true]] 0 0).2.2 none
     (fun _ => [[200]]) [(1, 1, 1)] 0 1 [[200]] [[true]] (1, 1, 1) false
     (by decide) (by decide)⟩

/-- Python `assert expr`: raises `AssertionError` when the condition is
false. -/
def pyAssert (c : Prop) [Decidable c] : Except PyErr Unit :=
  if c then Except.ok () else Except.error PyErr.assertionError

/-- Python attribute access on the controller object: `none` models an
attribute that is assigned nowhere in the class, so reading it raises
`AttributeError`. -/
def pyGetAttr {α : Type} (a : Option α) : Except PyErr α :=
  match a with
  | some x => Except.ok x
  | none => Except.error PyErr.attributeError

/-- `self.addr`: referenced by `NIRRAM.target`'s log line but never
assigned anywhere in the `NIRRAM` class (only `addr_idxs` / `addr_prof`
exist), so every access raises `AttributeError`. -/
def NIRRAM.addr : Option ℚ := none

/-- Elementwise `res_array > x` on the read-back DataFrame: a boolean
DataFrame of the same shape. -/
def dfGt (df : ResArray) (x : ℚ) : Grid :=
  df.map (fun row => row.map (fun r => decide (x < r)))

/-- Truth value of a pandas DataFrame (`if df > x:`): pandas raises
`ValueError` ("the truth value of a DataFrame is ambiguous")
unconditionally, for every shape including 1×1. -/
def dataFrameBool (_g : Grid) : Except PyErr Bool :=
  Except.error PyErr.valueError

/-- `NIRRAM.target(target_res_lo, target_res_hi, scheme, max_attempts)`.
After the two assertions, each loop attempt performs one read and
immediately evaluates `if res > target_res_hi:` where `res` is the
`res_array` DataFrame returned by `self.read()` — pandas refuses to
produce its truth value, so the first attempt raises `ValueError`
(were that comparison scalar, the following
`self.dynamic_set(target_res_hi, scheme)` would bind the resistance to
`dynamic_set`'s `mode` parameter and fail the `self.op[mode]` config
lookup with `KeyError`). With zero attempts the loop body never runs and
the summary log line reads the nonexistent attribute `self.addr`,
raising `AttributeError` (`res` would also be unbound). -/
def NIRRAM.target (lo hi : ℚ) (max_attempts : Nat)
    (oracle : Nat → ResArray) : Except PyErr (ResArray × Nat × Bool) := do
  let _ ← pyAssert (6000 ≤ lo)
  let _ ← pyAssert (lo ≤ hi)
  match max_attempts with
  | 0 => do
    let _a ← pyGetAttr NIRRAM.addr
    Except.error PyErr.nameError
  | _ + 1 => do
    let res := oracle 0
    let b ← dataFrameBool (dfGt res hi)
    if b then Except.error PyErr.keyError else Except.error PyErr.valueError

/-- Claim C6, code_bug evidence: the two precondition assertions do
raise as claimed (`lo` below the 6000 floor, or `hi < lo`), but the
claimed success path does not exist: even with a first read landing
inside `[lo, hi]` the call raises (`ValueError` at the DataFrame truth
test `if res > target_res_hi`), and in fact `target` can never return
normally for any input — its loop body cannot pass the truth test and
its exit path reads the never-assigned attribute `self.addr` (and would
also pass `target_res_hi` into `dynamic_set`'s `mode` parameter). -/
theorem claim_C6 :
    NIRRAM.target 5999 7000 25 (fun _ => [[6500]]) =
      Except.error PyErr.assertionError ∧
    NIRRAM.target 7000 6500 25 (fun _ => [[6500]]) =
      Except.error PyErr.assertionError ∧
    NIRRAM.target 6000 7000 25 (fun _ => [[6500]]) =
      Except.error PyErr.valueError ∧
    (∀ (lo hi : ℚ) (n : Nat) (oracle : Nat → ResArray),
      (NIRRAM.target lo hi n oracle).isOk = false) := by
  refine ⟨rfl, rfl, rfl, ?_⟩
  intro lo hi n oracle
  unfold NIRRAM.target
  by_cases h1 : (6000 : ℚ) ≤ lo
  · by_cases h2 : lo ≤ hi
    · simp only [pyAssert, if_pos h1, if_pos h2]
      cases n <;> rfl
    · simp only [pyAssert, if_pos h1, if_neg h2]
      rfl
  · simp only [pyAssert, if_neg h1]
    rfl

/-- Failure classification of one endurance cycle
(`endurance_dynamic_set_reset`): with `fail_on_all` the cycle counts as
failed when no reset row succeeded or no set row succeeded; otherwise
when any reset row failed or (checked only if no reset row failed) any
set row failed. The `for`/`break` scans of the source are the
corresponding `any` tests. -/
def cycleFailed (failOnAll : Bool) (dataReset dataSet : List Row) : Bool :=
  if failOnAll then
    let failedReset := !(dataReset.any (fun d => d.success == true))
    let failedSet := !(dataSet.any (fun d => d.success == true))
    failedReset || failedSet
  else
    let failedReset := dataReset.any (fun d => d.success == false)
    let failedSet :=
      if failedReset then false else dataSet.any (fun d => d.success == false)
    failedReset || failedSet

/-- Failure counter update of one endurance cycle: on a counted failure
both the total and the consecutive counter increment, otherwise the
consecutive counter resets to 0. -/
def failStep (counted : Bool) (total seq : Nat) : Nat × Nat :=
  if counted then (total + 1, seq + 1) else (total, 0)

/-- Configuration of one `endurance_dynamic_set_reset` run: the two
convergence-search configurations used per cycle, the cycle bound, the
read schedule and the failure policy. -/
structure EndCfg where
  resetCfg : DynCfg
  setCfg : DynCfg
  maxCycles : Nat
  schedule : List (ℤ × ℤ)
  maxFailures : Nat
  failOnAll : Bool

/-- Cycling loop of `endurance_dynamic_set_reset` (`while cycle <=
max_cycles`), one fuel unit per cycle so `fuel = max_cycles + 1 - cycle`;
state: current cycle, `next_record_cycle`, remaining checkpoint list
(the source keeps it reversed and pops from the end; popping the front
of the forward list is the same), total and consecutive failure
counters, the read-oracle position and the cycles recorded so far.
Returns the recorded cycles, the total failures and the final cycle;
`IndexError` models `next_record_cycles.pop()` on an empty list. -/
def enduranceLoop (cfg : EndCfg) (oracle : Nat → ResArray) :
    Nat → Nat → ℤ → List ℤ → Nat → Nat → Nat → List Nat →
      Except PyErr (List Nat × Nat × Nat)
  | 0, cycle, _, _, total, _, _, recd => Except.ok (recd, total, cycle)
  | fuel + 1, cycle, nextRec, pending, total, seq, k, recd =>
    let dR := NIRRAM.dynamic_reset cfg.resetCfg none oracle k
    match dR.2 with
    | none => Except.error PyErr.nameError
    | some dataReset =>
      let dS := NIRRAM.dynamic_set cfg.setCfg none oracle dR.1
      match dS.2 with
      | none => Except.error PyErr.nameError
      | some dataSet =>
        let recOut : Except PyErr (ℤ × List ℤ × List Nat) :=
          if nextRec ≤ (cycle : ℤ) then
            match pending with
            | [] => Except.error PyErr.indexError
            | c :: rest => Except.ok (c, rest, recd ++ [cycle])
          else Except.ok (nextRec, pending, recd)
        match recOut with
        | Except.error e => Except.error e
        | Except.ok (nextRec1, pending1, recd1) =>
          let counted := cycleFailed cfg.failOnAll dataReset dataSet
          let ts := failStep counted total seq
          if cfg.maxFailures ≤ ts.2 then Except.ok (recd1, ts.1, cycle)
          else enduranceLoop cfg oracle fuel (cycle + 1) nextRec1 pending1
            ts.1 ts.2 dS.1 recd1

/-- `NIRRAM.endurance_dynamic_set_reset(max_cycles, sweep_schedule,
max_failures, ..., fail_on_all)`: build the checkpoint list, pop the
first checkpoint, and run the cycling loop. -/
def NIRRAM.endurance_dynamic_set_reset (cfg : EndCfg)
    (oracle : Nat → ResArray) (k0 : Nat) :
    Except PyErr (List Nat × Nat × Nat) :=
  match NIRRAM.get_read_cycles (cfg.maxCycles : ℤ) cfg.schedule with
  | none => Except.error PyErr.indexError
  | some [] => Except.error PyErr.indexError
  | some (c0 :: rest) =>
    enduranceLoop cfg oracle (cfg.maxCycles + 1) 0 c0 rest 0 0 k0 []

def rowFail : Row := ⟨0, 0, 500, false⟩

def rowPass : Row := ⟨0, 0, 500, true⟩

/-- Claim C9, counterexample: with `fail_on_all = true` and a single
addressed cell that failed its reset convergence but succeeded its set
convergence, the cycle IS counted as a failure — yet the cell did not
fail both phases, contradicting the claim's "only if every addressed
cell failed both its reset and its set convergence". -/
theorem claim_C9_counterexample :
    cycleFailed true [rowFail] [rowPass] = true ∧ rowPass.success = true :=
  ⟨rfl, rfl⟩

/-- Auxiliary fact: no row succeeded is the same as all rows failed. -/
theorem not_any_success (l : List Row) :
    (!(l.any (fun d => d.success == true))) =
      l.all (fun d => d.success == false) := by
  induction l with
  | nil => rfl
  | cons x xs ih =>
    cases hx : x.success
    · simp only [List.any_cons, List.all_cons, hx,
        show ((false == true) = false) from rfl,
        show ((false == false) = true) from rfl,
        Bool.false_or, Bool.true_and, ih]
    · simp only [List.any_cons, List.all_cons, hx,
        show ((true == true) = true) from rfl,
        show ((true == false) = false) from rfl,
        Bool.true_or, Bool.false_and, Bool.not_true]

/-- Claim C9 as amended: with `fail_on_all = true` a cycle is counted as
a failure iff every addressed cell failed its reset convergence OR every
addressed cell failed its set convergence (the source tests the two
phases separately and takes the disjunction, not the claim's
per-cell conjunction); with `fail_on_all = false` a cycle is counted as
a failure iff any single cell failed either phase; a counted failure
increments both counters and a non-failing cycle resets the consecutive
counter to 0. -/
theorem claim_C9_amended (dR dS : List Row) (total seq : Nat) :
    cycleFailed true dR dS =
      (dR.all (fun d => d.success == false) ||
       dS.all (fun d => d.success == false)) ∧
    cycleFailed false dR dS =
      (dR.any (fun d => d.success == false) ||
       dS.any (fun d => d.success == false)) ∧
    failStep false total seq = (total, 0) ∧
    failStep true total seq = (total + 1, seq + 1) := by
  refine ⟨?_, ?_, rfl, rfl⟩
  · unfold cycleFailed
    rw [not_any_success dR, not_any_success dS]
    rfl
  · unfold cycleFailed
    cases h : dR.any (fun d => d.success == false) <;> simp [h]

def endCfgW : EndCfg := ⟨cfgResetW, cfgSetW, 25, [(0, 1), (10, 10)], 100, true⟩

def cfgResetFailW : DynCfg := ⟨⟨[0], [0], [0], [0], [0], [0]⟩, 1000, [1], [1], [1]⟩

def endCfgFailW : EndCfg :=
  ⟨cfgResetFailW, cfgSetW, 25, [(0, 1), (10, 10)], 3, true⟩

/-- Claim C10, code_bug evidence: with `max_cycles = 25`, schedule
`[(0, 1), (10, 10)]` and an oracle under which every cycle's reset and
set both converge (so the consecutive-failure count never reaches
`max_failures = 100`), the run does NOT execute through cycle 25 and
return normally: at the last scheduled checkpoint (cycle 20) the
record block calls `next_record_cycles.pop()` on an already-empty list
and the function dies with `IndexError`. By contrast, a run whose
consecutive failures hit `max_failures = 3` before the last checkpoint
(second conjunct: the reset target 1000 is never reached) terminates
early and normally, having recorded exactly the checkpoints 0, 1, 2 with
3 total failures at cycle 2 — so the only non-raising exits are early
failure aborts. -/
theorem claim_C10 :
    NIRRAM.endurance_dynamic_set_reset endCfgW (fun _ => [[50]]) 0 =
      Except.error PyErr.indexError ∧
    NIRRAM.endurance_dynamic_set_reset endCfgFailW (fun _ => [[50]]) 0 =
      Except.ok ([0, 1, 2], 3, 2) := by
  constructor <;> rfl

/-- Python built-in `round`: round half to even (banker's rounding), as
used by `util.linear_sweep` to compute the point count. -/
def pyRound (q : ℚ) : ℤ :=
  let f := ⌊q⌋
  let r := q - f
  if r < 1 / 2 then f
  else if 1 / 2 < r then f + 1
  else if f % 2 = 0 then f else f + 1

/-- `np.linspace(a, b, n)` with endpoint: `n` evenly spaced samples from
`a` to `b` inclusive. -/
def linspace (a b : ℚ) (n : Nat) : List ℚ :=
  match n with
  | 0 => []
  | 1 => [a]
  | m + 2 => (List.range (m + 2)).map (fun i => a + (b - a) * i / (m + 1))

/-- `util.linear_sweep({"start": x0, "stop": x1, "step": dx})`:
`npoints = 1 + int(abs(round((stop - start)/step)))` then an
endpoint-inclusive linspace. A zero step is a `ZeroDivisionError`
(`none`). -/
def linear_sweep (start stop step : ℚ) : Option (List ℚ) :=
  if step = 0 then none
  else some (linspace start stop (1 + (pyRound ((stop - start) / step)).natAbs))

/-- `itertools.product(vwl_sweep, vbl_sweep)` in iteration order. -/
def sweepPairs (vwls vbls : List ℚ) : List (ℚ × ℚ) :=
  vwls.bind (fun vwl => vbls.map (fun vbl => (vwl, vbl)))

/-- Overshoot test of the coarse/fine passes, array branch: some
addressed cell's read resistance is at or below the absolute floor
`res_low` (checked for every addressed cell, mask state ignored). -/
def tdsOvershoot (resLow : ℚ) (dev : NIRRAMDev) (res : ResArray) : Bool :=
  dev.wls.enum.any (fun aw => dev.bls.enum.any (fun bb =>
    decide (resAt res aw.1 bb.1 ≤ resLow)))

/-- 1TNR scan of one coarse/fine iteration: walk the addressed
wordlines, accumulate the overshoot flag, and break to non-success at
the first live selected cell whose resistance still exceeds the bound
(the overshoot flag therefore only accounts for the wordlines scanned up
to the break, exactly as in the source). Returns (success, failed). -/
def tdsTnrScan (resHigh resLow : ℚ) (dev : NIRRAMDev) (blSel : Nat)
    (res : ResArray) (g : Grid) :
    List (Nat × Nat) → Bool → Bool × Bool
  | [], failed => (true, failed)
  | aw :: rest, failed =>
    let r := resAt res aw.1 (dev.bls.indexOf blSel)
    let failed1 := failed || decide (r ≤ resLow)
    if decide (resHigh < r) &&
        gridGet g (dev.allWls.indexOf aw.2) (dev.allBls.indexOf blSel) then
      (false, failed1)
    else tdsTnrScan resHigh resLow dev blSel res g rest failed1

/-- One read's processing inside a coarse/fine sweep: in the array
branch the source interleaves the overshoot test and the mask update in
a single scan over the addressed cells; since the overshoot test never
looks at the mask the two are computed separately here with identical
effect. Returns (new grid, success, failed). -/
def tdsStep (resHigh resLow : ℚ) (dev : NIRRAMDev) (blSel : Option Nat)
    (res : ResArray) (g : Grid) (failed : Bool) : Grid × Bool × Bool :=
  match blSel with
  | none =>
    let failed1 := failed || tdsOvershoot resLow dev res
    let g1 := updateMask cmpSet resHigh dev res g
    (g1, gridAllFalse g1, failed1)
  | some bl =>
    let sf := tdsTnrScan resHigh resLow dev bl res g dev.wls.enum failed
    (g, sf.1, sf.2)

/-- Coarse/fine (vwl, vbl) sweep loop of `targeted_dynamic_set`:
pulse+read per pair, break on success or overshoot. Returns the
read-counter, the last (read, vwl, vbl) if any read happened, the
success flag and the overshoot flag. -/
def tdsSweepLoop (resHigh resLow : ℚ) (dev : NIRRAMDev)
    (blSel : Option Nat) (oracle : Nat → ResArray) :
    List (ℚ × ℚ) → Nat → Grid → Bool →
      Nat × Option (ResArray × ℚ × ℚ) × Bool × Bool
  | [], k, _, failed => (k, none, false, failed)
  | (vwl, vbl) :: rest, k, g, failed =>
    let res := oracle k
    let stp := tdsStep resHigh resLow dev blSel res g failed
    if stp.2.1 || stp.2.2 then
      (k + 1, some (res, vwl, vbl), stp.2.1, stp.2.2)
    else
      match tdsSweepLoop resHigh resLow dev blSel oracle rest (k + 1)
          stp.1 stp.2.2 with
      | (k2, none, s, f) => (k2, some (res, vwl, vbl), s, f)
      | out => out

/-- Configuration block of `targeted_dynamic_set` (`self.op[mode]
[polarity]`): window bounds, coarse sweep ranges, fine window
parameters, plus the configurations of the
`dynamic_reset`/`dynamic_set`/`dynamic_reset` initialization sequence. -/
structure TDSCfg where
  dev : NIRRAMDev
  resetCfg : DynCfg
  setCfg : DynCfg
  pw : ℚ
  res_high_coarse : ℚ
  res_high_fine : ℚ
  res_low : ℚ
  vwl_coarse_start : ℚ
  vwl_coarse_stop : ℚ
  vwl_coarse_step : ℚ
  vbl_coarse_start : ℚ
  vbl_coarse_stop : ℚ
  vbl_coarse_step : ℚ
  vwl_fine_window_high : ℚ
  vwl_fine_window_low : ℚ
  vwl_fine_step : ℚ
  vwl_fine_limit : ℚ
  vbl_fine_window_high : ℚ
  vbl_fine_window_low : ℚ
  vbl_fine_step : ℚ
  vbl_fine_limit : ℚ

/-- Attempt loop of `targeted_dynamic_set` (`for _n in
range(max_attempts)`). Per attempt: reset/set/reset initialization,
coarse sweep over the configured (VWL, VBL) grid, on coarse success a
fine sweep over a window centered at the successful coarse (vwl, vbl)
with each stop clamped by the configured fine limit; overshoot below
`res_low` in either pass restarts the attempt, fine success breaks out.
`last` carries the most recent (res_array, vwl, vbl), which persists
across attempts exactly like the Python locals; `none` models an
exception escaping (`NameError` inside an initialization search with an
empty sweep, or `ZeroDivisionError` from a zero sweep step). -/
def tdsAttempts (cfg : TDSCfg) (blSel : Option Nat)
    (oracle : Nat → ResArray) :
    Nat → Nat → Option (ResArray × ℚ × ℚ) →
      Option (Nat × Option (ResArray × ℚ × ℚ))
  | 0, k, last => some (k, last)
  | n + 1, k, last =>
    match NIRRAM.dynamic_reset cfg.resetCfg none oracle k with
    | (_, none) => none
    | (k1, some _) =>
    match NIRRAM.dynamic_set cfg.setCfg none oracle k1 with
    | (_, none) => none
    | (k2, some _) =>
    match NIRRAM.dynamic_reset cfg.resetCfg none oracle k2 with
    | (_, none) => none
    | (k3, some _) =>
    match linear_sweep cfg.vwl_coarse_start cfg.vwl_coarse_stop
        cfg.vwl_coarse_step with
    | none => none
    | some vwlSweep =>
    match linear_sweep cfg.vbl_coarse_start cfg.vbl_coarse_stop
        cfg.vbl_coarse_step with
    | none => none
    | some vblSweep =>
      let g0 := (RRAMArrayMask.init cfg.dev.wls cfg.dev.bls cfg.dev.sls
        cfg.dev.allWls cfg.dev.allBls cfg.dev.allSls "NMOS").mask
      let co := tdsSweepLoop cfg.res_high_coarse cfg.res_low cfg.dev blSel
        oracle (sweepPairs vwlSweep vblSweep) k3 g0 false
      let last1 := match co.2.1 with | none => last | some r => some r
      if co.2.2.2 then tdsAttempts cfg blSel oracle n co.1 last1
      else if !co.2.2.1 then tdsAttempts cfg blSel oracle n co.1 last1
      else
        match last1 with
        | none => none
        | some (_, vwl, vbl) =>
          let vwlFineStart := vwl + cfg.vwl_fine_window_high
          let vwlFineStop0 := vwl + cfg.vwl_fine_window_low
          let vwlFineStop := if cfg.vwl_fine_step < 0 then
            max vwlFineStop0 cfg.vwl_fine_limit else
            min vwlFineStop0 cfg.vwl_fine_limit
          let vblFineStart := vbl + cfg.vbl_fine_window_high
          let vblFineStop0 := vbl + cfg.vbl_fine_window_low
          let vblFineStop := if cfg.vbl_fine_step < 0 then
            max vblFineStop0 cfg.vbl_fine_limit else
            min vblFineStop0 cfg.vbl_fine_limit
          match linear_sweep vwlFineStart vwlFineStop cfg.vwl_fine_step with
          | none => none
          | some vwlFineSweep =>
          match linear_sweep vblFineStart vblFineStop cfg.vbl_fine_step with
          | none => none
          | some vblFineSweep =>
            let gf := (RRAMArrayMask.init cfg.dev.wls cfg.dev.bls
              cfg.dev.sls cfg.dev.allWls cfg.dev.allBls cfg.dev.allSls
              "NMOS").mask
            let fi := tdsSweepLoop cfg.res_high_fine cfg.res_low cfg.dev
              blSel oracle (sweepPairs vwlFineSweep vblFineSweep) co.1 gf
              false
            let last2 := match fi.2.1 with | none => last1 | some r => some r
            if fi.2.2.2 then tdsAttempts cfg blSel oracle n fi.1 last2
            else if fi.2.2.1 then some (fi.1, last2)
            else tdsAttempts cfg blSel oracle n fi.1 last2

/-- Final per-cell report of `targeted_dynamic_set`:
`cell_success = res <= res_high_fine and res >= res_low`. -/
def tdsFinalRows (cfg : TDSCfg) (res : ResArray) : List Row :=
  cfg.dev.wls.enum.bind (fun aw => cfg.dev.bls.enum.map (fun bb =>
    { wl := aw.2, bl := bb.2, res := resAt res aw.1 bb.1,
      success := decide (resAt res aw.1 bb.1 ≤ cfg.res_high_fine) &&
        decide (cfg.res_low ≤ resAt res aw.1 bb.1) }))

/-- `NIRRAM.targeted_dynamic_set(mode, ..., max_attempts)`: run the
attempt loop and report the per-cell rows from the last read; `none`
models an exception (including the `NameError` on `res_array` when no
read ever happened). -/
def NIRRAM.targeted_dynamic_set (cfg : TDSCfg) (blSel : Option Nat)
    (oracle : Nat → ResArray) (maxAttempts k0 : Nat) :
    Option (List Row) :=
  match tdsAttempts cfg blSel oracle maxAttempts k0 none with
  | none => none
  | some (_, none) => none
  | some (_, some (res, _, _)) => some (tdsFinalRows cfg res)

/-- Claim C7: every per-cell row returned by `targeted_dynamic_set`
carries `success = true` only if that cell's final read resistance lies
within the closed interval `[res_low, res_high_fine]`. -/
theorem claim_C7 (cfg : TDSCfg) (blSel : Option Nat)
    (oracle : Nat → ResArray) (maxAttempts k0 : Nat) (rows : List Row)
    (hrows : NIRRAM.targeted_dynamic_set cfg blSel oracle maxAttempts k0 =
      some rows) :
    ∀ r ∈ rows, r.success = true →
      cfg.res_low ≤ r.res ∧ r.res ≤ cfg.res_high_fine := by
  unfold NIRRAM.targeted_dynamic_set at hrows
  split at hrows
  · exact absurd hrows (by simp)
  · exact absurd hrows (by simp)
  · injection hrows with h
    subst h
    intro r hr hs
    simp only [tdsFinalRows, List.mem_bind, List.mem_map] at hr
    obtain ⟨aw, _, bb, _, rfl⟩ := hr
    obtain ⟨h1, h2⟩ := (Bool.and_eq_true _ _).mp hs
    exact ⟨of_decide_eq_true h2, of_decide_eq_true h1⟩

def tdsCfgW : TDSCfg :=
  { dev := devW
    resetCfg := cfgResetW
    setCfg := cfgSetW
    pw := 1
    res_high_coarse := 100
    res_high_fine := 60
    res_low := 10
    vwl_coarse_start := 1
    vwl_coarse_stop := 1
    vwl_coarse_step := 1
    vbl_coarse_start := 1
    vbl_coarse_stop := 1
    vbl_coarse_step := 1
    vwl_fine_window_high := 0
    vwl_fine_window_low := 0
    vwl_fine_step := 1
    vwl_fine_limit := 0
    vbl_fine_window_high := 0
    vbl_fine_window_low := 0
    vbl_fine_step := 1
    vbl_fine_limit := 0 }

theorem tdsCfgW_run :
    NIRRAM.targeted_dynamic_set tdsCfgW none (fun _ => [[50]]) 1 0 =
      some [⟨0, 0, 50, true⟩] := by
  have hc : linear_sweep 1 1 1 = some [1] := by
    norm_num [linear_sweep, pyRound, linspace]
  have hf : linear_sweep 1 0 1 = some [1, 0] := by
    norm_num [linear_sweep, pyRound, linspace, List.range_succ]
  have ha : tdsAttempts tdsCfgW none (fun _ => [[50]]) 1 0 none =
      some (5, some ([[50]], 1, 1)) := by
    rw [tdsAttempts]
    norm_num [NIRRAM.dynamic_reset, NIRRAM.dynamic_set, dynamicPass,
      runSweep, sweepTriples, sweepPairs, tdsSweepLoop, tdsStep, sweepStep,
      oneTnrHitTarget, tdsOvershoot, updateMask, clearStep, gridAllFalse,
      gridGet, gridSet, resAt, RRAMArrayMask.init, cmpSet, cmpReset,
      tdsCfgW, cfgResetW, cfgSetW, devW, finalRows, hc, hf, tdsAttempts,
      List.enum, List.enumFrom, List.indexOf, List.findIdx, List.findIdx.go]
  rw [NIRRAM.targeted_dynamic_set, ha]
  rfl

theorem claim_C7_witness :
    tdsCfgW.res_low ≤ (50 : ℚ) ∧ (50 : ℚ) ≤ tdsCfgW.res_high_fine :=
  claim_C7 tdsCfgW none (fun _ => [[50]]) 1 0 [⟨0, 0, 50, true⟩] tdsCfgW_run
    ⟨0, 0, 50, true⟩ (by decide) rfl
